import Mathlib

/-!
Verification development for the blocktree zero-downtime index rebuild engine
(`src/tools/elastic-indexer.js` and `src/tools/mongo-indexer.js`).

The JavaScript functions are shallowly embedded as pure Lean functions:
callback results, backend responses and clocks are passed in explicitly as
environment values, and every backend request the engine issues is recorded
as an event in an output trace.  Reports are modeled as structures whose
`Option` fields are `none` exactly when the corresponding JS report key was
never assigned.
-/

/-- A JSON-ish value, the payloads the indexers move around. -/
inductive JVal where
  | vNull
  | vBool (b : Bool)
  | vNum (n : Int)
  | vStr (s : String)
deriving DecidableEq, Repr

/-- A record handed to the engine by `batchCallback`: a JS object modeled as an
association list of fields (first binding wins). -/
abbrev Record := List (String × JVal)

/-- JS property access `item.k`: a missing field reads as `undefined`/`null`. -/
def getField (item : Record) (k : String) : JVal :=
  (List.lookup k item).getD JVal.vNull

/-- JS truthiness of the values a record field can hold. -/
def truthy : JVal → Bool
  | JVal.vNull => false
  | JVal.vBool b => b
  | JVal.vNum n => n != 0
  | JVal.vStr s => s != ""

/-- JS `String.prototype.startsWith(pat)`, used for the `{alias}---` naming
convention (and for the backend-side `{alias}---*` wildcard match). -/
def strStarts (pat s : String) : Bool :=
  pat.data.isPrefixOf s.data

/-- Remove the first occurrence of `pat` from a character list: the semantics
of JS `String.prototype.replace(pat, "")` with a string pattern. -/
def removeFirstSub (pat : List Char) : List Char → List Char
  | [] => []
  | c :: rest =>
    if pat.isPrefixOf (c :: rest) then (c :: rest).drop pat.length
    else c :: removeFirstSub pat rest

/-- Split a character list on a separator character (JS `split`). -/
def splitOnChar (sep : Char) : List Char → List (List Char)
  | [] => [[]]
  | c :: rest =>
    let r := splitOnChar sep rest
    if c = sep then [] :: r
    else
      match r with
      | [] => [[c]]
      | h :: t => (c :: h) :: t

/-- Parse a nonempty all-digit character list as a number. -/
def natOfDigits (l : List Char) : Option Nat :=
  if l = [] then none
  else if l.all (fun c => c.isDigit) then
    some (l.foldl (fun acc c => acc * 10 + (c.toNat - 48)) 0)
  else none

/-- Model of the host's `new Date(s).getTime()` on the strings the naming
scheme produces: `"M.D.YYYY H:MM:SS"` (a `toLocaleString('en')` timestamp whose
`/` were replaced by `.`).  A successful parse is encoded as an integer that is
order-isomorphic to the real epoch value on this format, which is faithful for
every use in the code (the parsed time is only ever compared).  Any string the
host cannot parse yields `NaN`, modeled as `none`. -/
def jsDateParse (s : List Char) : Option Int :=
  match splitOnChar ' ' s with
  | [datePart, timePart] =>
    match splitOnChar '.' datePart, splitOnChar ':' timePart with
    | [ms, ds, ys], [hs, mins, ss] =>
      match natOfDigits ms, natOfDigits ds, natOfDigits ys,
            natOfDigits hs, natOfDigits mins, natOfDigits ss with
      | some m, some d, some y, some h, some mi, some sec =>
        if 1 ≤ m ∧ m ≤ 12 ∧ 1 ≤ d ∧ d ≤ 31 ∧ h ≤ 24 ∧ mi ≤ 59 ∧ sec ≤ 59 then
          some ((((((y : Int) * 13 + m) * 32 + d) * 25 + h) * 60 + mi) * 60 + sec)
        else none
      | _, _, _, _, _, _ => none
    | _, _ => none
  | _ => none

/-- `getIndexTime` as defined (identically) in both indexer files: strip the
first occurrence of `"{alias}---"`, turn `_` back into spaces and `-` back
into `:`, and hand the result to the date parser.  `none` models `NaN`. -/
def getIndexTime (aliasName : String) (indexName : String) : Option Int :=
  let s := removeFirstSub (aliasName ++ "---").data indexName.data
  let s := s.map (fun c => if c = '_' then ' ' else c)
  let s := s.map (fun c => if c = '-' then ':' else c)
  jsDateParse s

/-- The comparator `(a, b) => getIndexTime(b) - getIndexTime(a)` reduced to a
strict "must come earlier" test: `a` strictly precedes `b` iff the comparator
is negative.  A `NaN` difference is not `< 0`, so any comparison involving an
unparsable name reports "no strict precedence" — exactly how the JS engine's
sort treats a `NaN` comparator result (as a tie). -/
def ltTime (t : String → Option Int) (a b : String) : Bool :=
  match t a, t b with
  | some x, some y => decide (y < x)
  | _, _ => false

/-- Insert `x` into `acc` immediately before the first element it strictly
precedes (after all elements it ties with). -/
def insertSorted (lt : α → α → Bool) (x : α) : List α → List α
  | [] => [x]
  | y :: ys => if lt x y then x :: y :: ys else y :: insertSorted lt x ys

/-- Model of `Array.prototype.sort(comparefn)`: a stable comparison sort in
which a non-negative (or `NaN`) comparator result leaves the pair in its
current relative order.  Stability is mandated by ECMA-262. -/
def jsSort (lt : α → α → Bool) (l : List α) : List α :=
  l.foldl (fun acc x => insertSorted lt x acc) []

/-- One line of an elastic `bulk` request body: an action line (`delete` or
`index`, carrying `_index` and `_id`) or a document line. -/
inductive BulkLine where
  | act (del : Bool) (idx : String) (id : JVal)
  | doc (r : Record)
deriving DecidableEq, Repr

/-- The elastic `insertData` writer (elastic-indexer.js lines 244-250):
`items.flatMap(item => [{[item.delete ? 'delete' : 'index']: {_index, _id:
item[config.keyId || 'id'], ...config.bulk}}, item])`.  Note that the action
is chosen by the `delete` field and that the document line is emitted after
the action line for every item, deletes included.  (`config.bulk` only spreads
extra routing options into the action metadata and is not modeled.) -/
def elasticBulkOperations (keyId : Option String) (idx : String)
    (items : List Record) : List BulkLine :=
  items.flatMap (fun item =>
    [BulkLine.act (truthy (getField item "delete")) idx
       (getField item (keyId.getD "id")),
     BulkLine.doc item])

/-- An elastic index as a document store: id ↦ document. -/
abbrev ElasticDocs := List (JVal × Record)

/-- How the backend consumes a bulk body: an `index` action consumes the
following document line and upserts it under `_id`; a `delete` action stands
alone and removes `_id`.  A document line in any other position makes the
whole body malformed (`none`), as the real bulk API rejects it. -/
def applyBulk : List BulkLine → ElasticDocs → Option ElasticDocs
  | [], docs => some docs
  | BulkLine.act false _ id :: BulkLine.doc d :: rest, docs =>
      applyBulk rest ((docs.filter (fun p => p.1 ≠ id)) ++ [(id, d)])
  | BulkLine.act true _ id :: rest, docs =>
      applyBulk rest (docs.filter (fun p => p.1 ≠ id))
  | _, _ => none

/-- One operation of a mongo `bulkWrite` body. -/
inductive MongoOp where
  | deleteOne (filter : List (String × JVal))
  | updateOne (filter : List (String × JVal)) (set : Record)
deriving DecidableEq, Repr

/-- `const filter = (keyId in item) ? { [keyId]: item[keyId] } : {}`. -/
def mongoFilter (keyId : String) (item : Record) : List (String × JVal) :=
  if (List.lookup keyId item).isSome then [(keyId, getField item keyId)] else []

/-- The mongo `insertData` writer (mongo-indexer.js lines 230-238): key field
`config.keyId || '_id'`; a record with a truthy `deleted` field becomes a
`deleteOne`, anything else an upserting `updateOne`. -/
def mongoDocs (keyIdCfg : Option String) (items : List Record) : List MongoOp :=
  let keyId := keyIdCfg.getD "_id"
  items.map (fun item =>
    if truthy (getField item "deleted") then MongoOp.deleteOne (mongoFilter keyId item)
    else MongoOp.updateOne (mongoFilter keyId item) item)

/-- The per-offset slot `reports.insertData[offset]` of a run report. -/
structure BatchReport where
  callback_logs : Option (List String) := none
  callback_succeeded : Option Bool := none
  callback_error : Option String := none
  inserting_succeeded : Option Bool := none
  inserting_errors : Option (List String) := none
deriving DecidableEq, Repr

/-- Outcome slot of `reports.removeIndices[name]`: `true` or an error string. -/
inductive RemRes where
  | removed
  | failed (e : String)
deriving DecidableEq, Repr

/-- The run report.  An `Option` field is `none` exactly when the JS code
never assigned that report key. -/
structure Report where
  using_index : Option String := none
  insertData : List (Nat × BatchReport) := []
  testing_logs : Option (List String) := none
  testing_succeeded : Option Bool := none
  testing_error : Option String := none
  removeAliases : Option (List String) := none
  keepIndices : Option (List String) := none
  removeIndices : Option (List (String × RemRes)) := none
  succeeded : Option Bool := none
  general_error : Option String := none
deriving DecidableEq, Repr

/-- One alias action of an elastic `updateAliases` request.  JS can put an
`undefined` index into an `add` action, hence the `Option`. -/
inductive AliasAction where
  | add (idx : Option String) (aliasName : String)
  | remove (idx : String) (aliasName : String)
deriving DecidableEq, Repr

/-- A backend request issued by the elastic indexer, in issue order. -/
inductive Event where
  | createIndex (name : String)
  | reindexCopy (src dst : String)
  | batchCall (offset : Nat)
  | bulkWrite (idx : String) (ops : List BulkLine)
  | updateAliases (actions : List AliasAction)
  | deleteIndex (name : String)
deriving DecidableEq, Repr

/-- The configuration fields of `ElasticIndexer` that the claims touch.
`index` is the alias name. -/
structure ElasticConfig where
  index : String
  mode : Option String := none
  keyId : Option String := none
  keepAliasesCount : Option Nat := none

/-- The environment of one `ElasticIndexer` run: everything the engine
receives from the outside world, in the order it asks for it.
`batches` lists the successive `batchCallback` outcomes (`Except.error` models
a rejection); when the list is exhausted the callback is modeled as resolving
with `[]`.  `bulkErrors offset` is the `response.errors` payload of the bulk
call for that offset (`none` = clean response).  `bound0` / `boundAtUpdate`
are the key sets of the two `getAlias` responses, `cluster5` the index names
existing when step 5 lists `{alias}---*`, and `deleteOutcome` gives each
`indices.delete` rejection reason, if any.  Backend calls whose failure the
code does not handle locally (create/reindex/bulk transport/updateAliases,
which would route to the outer `catch` as `general_error`) are modeled as
resolving. -/
structure ElasticEnv where
  bound0 : List String := []
  timeFormat : String := ""
  batches : List (Except String (List Record)) := []
  test : Option (Except String Unit) := none
  bulkErrors : Nat → Option (List String) := fun _ => none
  boundAtUpdate : List String := []
  cluster5 : List String := []
  deleteOutcome : String → Option String := fun _ => none

/-- `insertData` (elastic-indexer.js lines 210-280): load a batch, report the
callback outcome, bulk-write the items, and recurse at `offset+items.length`;
an empty batch returns `true` (DONE) and a rejection returns `false` (FAILED).
Result: the `insertData` report entries, the events issued, and the flag. -/
def insertDataElastic (keyId : Option String) (indexName : String)
    (bulkErrors : Nat → Option (List String)) :
    List (Except String (List Record)) → Nat →
    List (Nat × BatchReport) × List Event × Bool
  | [], offset =>
      ([(offset, { callback_logs := some [], callback_succeeded := some true })],
       [Event.batchCall offset], true)
  | b :: rest, offset =>
    match b with
    | Except.error e =>
        ([(offset, { callback_logs := some [], callback_error := some e })],
         [Event.batchCall offset], false)
    | Except.ok items =>
      if items = [] then
        ([(offset, { callback_logs := some [], callback_succeeded := some true })],
         [Event.batchCall offset], true)
      else
        let ops := elasticBulkOperations keyId indexName items
        let br : BatchReport :=
          match bulkErrors offset with
          | some errs =>
              { callback_logs := some [], callback_succeeded := some true,
                inserting_errors := some errs }
          | none =>
              { callback_logs := some [], callback_succeeded := some true,
                inserting_succeeded := some true }
        let r := insertDataElastic keyId indexName bulkErrors rest (offset + items.length)
        ((offset, br) :: r.1,
         Event.batchCall offset :: Event.bulkWrite indexName ops :: r.2.1,
         r.2.2)

/-- `Object.keys(indexAliases).sort((a,b) => time(b)-time(a)).reverse()[0]`:
the bound index the engine calls `lastIndex` (elastic-indexer.js line 71). -/
def lastIndexOf (aliasName : String) (bound0 : List String) : Option String :=
  ((jsSort (ltTime (getIndexTime aliasName)) bound0).reverse).head?

/-- Step 1 of `ElasticIndexer` (lines 60-94): derive the fresh candidate name
`{alias}---{timeFormat}` and pick the working index by mode — reuse the bound
index for `sync`, reindex-copy it for `clone`, otherwise create a fresh empty
index.  Returns the chosen `config.indexName` and the creation events. -/
def elasticChoosePhase (cfg : ElasticConfig) (env : ElasticEnv) :
    String × List Event :=
  let freshName := cfg.index ++ "---" ++ env.timeFormat
  match lastIndexOf cfg.index env.bound0 with
  | some li =>
    if cfg.mode == some "sync" then (li, [])
    else if cfg.mode == some "clone" then (freshName, [Event.reindexCopy li freshName])
    else (freshName, [Event.createIndex freshName])
  | none => (freshName, [Event.createIndex freshName])

/-- The working index name of a run. -/
def elasticIndexName (cfg : ElasticConfig) (env : ElasticEnv) : String :=
  (elasticChoosePhase cfg env).1

/-- The build loop's combined result for a run. -/
def elasticInsert (cfg : ElasticConfig) (env : ElasticEnv) :
    List (Nat × BatchReport) × List Event × Bool :=
  insertDataElastic cfg.keyId (elasticIndexName cfg env) env.bulkErrors env.batches 0

/-- Whether the build loop terminated in DONE. -/
def elasticDone (cfg : ElasticConfig) (env : ElasticEnv) : Bool :=
  (elasticInsert cfg env).2.2

/-- The `lastIndex && config.mode == 'sync'` guard (lines 74 and 135). -/
def elasticSyncMode (cfg : ElasticConfig) (env : ElasticEnv) : Bool :=
  (lastIndexOf cfg.index env.bound0).isSome && (cfg.mode == some "sync")

/-- Steps 4-5 of `ElasticIndexer` (lines 139-191): update the alias (add the
candidate, remove every index the alias currently resolves to), then list
`{alias}---*`, drop the now-active index, rank the rest newest-first, keep the
first `keepAliasesCount ?? 1`, attempt to delete each of the remainder
independently, record each outcome, and mark the run succeeded. -/
def elasticPromote (cfg : ElasticConfig) (env : ElasticEnv) (indexName : String)
    (r : Report) (evs : List Event) : Report × List Event :=
  let actions := AliasAction.add (some indexName) cfg.index ::
    env.boundAtUpdate.map (fun n => AliasAction.remove n cfg.index)
  let matching := (env.cluster5.filter (fun n => strStarts (cfg.index ++ "---") n)).filter
    (fun n => n ≠ indexName)
  let sorted := jsSort (ltTime (getIndexTime cfg.index)) matching
  let k := cfg.keepAliasesCount.getD 1
  let rem := sorted.drop k
  ({ r with removeAliases := some env.boundAtUpdate,
            keepIndices := some (sorted.take k),
            removeIndices := some (rem.map (fun n =>
              (n, match env.deleteOutcome n with
                  | none => RemRes.removed
                  | some e => RemRes.failed e))),
            succeeded := some true },
   evs ++ [Event.updateAliases actions] ++ rem.map Event.deleteIndex)

/-- `ElasticIndexer` (elastic-indexer.js lines 37-201): choose the working
index, run the build loop, stop on a failed loop; otherwise run the optional
test callback, stop on its rejection; skip promotion entirely in sync mode;
otherwise promote and prune. -/
def ElasticIndexer (cfg : ElasticConfig) (env : ElasticEnv) : Report × List Event :=
  let indexName := elasticIndexName cfg env
  let r1 : Report := { using_index := some indexName, insertData := (elasticInsert cfg env).1 }
  let evs1 := (elasticChoosePhase cfg env).2 ++ (elasticInsert cfg env).2.1
  if elasticDone cfg env = false then (r1, evs1)
  else
    match env.test with
    | some (Except.error e) =>
        ({ r1 with testing_logs := some [], testing_succeeded := some false,
                   testing_error := some e }, evs1)
    | some (Except.ok _) =>
        let r2 := { r1 with testing_logs := some [], testing_succeeded := some true }
        if elasticSyncMode cfg env then (r2, evs1)
        else elasticPromote cfg env indexName r2 evs1
    | none =>
        if elasticSyncMode cfg env then (r1, evs1)
        else elasticPromote cfg env indexName r1 evs1

/-- A backend request issued by the mongo indexer, in issue order. -/
inductive MongoEvent where
  | createCollection (name : String)
  | aggregateOut (src dst : String)
  | batchCall (offset : Nat)
  | bulkWrite (coll : String) (ops : List MongoOp)
  | renameCollection (a b : String)
  | dropCollection (name : String)
deriving DecidableEq, Repr

/-- The configuration fields of `MongoIndexer` that the claims touch.  The
code sets `config.index = config.collectionName`, so the collection name is
also the alias name. -/
structure MongoConfig where
  collectionName : String
  mode : Option String := none
  keyId : Option String := none
  keepAliasesCount : Option Nat := none

/-- The environment of one `MongoIndexer` run.  `collections` is the
`listCollections` snapshot taken once at the start; `bulkOutcome offset` is
the driver's `bulkWrite` result for that offset — on write failures the v6
driver rejects the promise (an `Except.error` here), which the code does not
catch locally, so it aborts the run via the outer `catch`; the in-code
`response.writeErrors` branch is unreachable on a resolved response and a
resolved bulk is reported as `inserting_succeeded`.  `dropOutcome` gives each
`dropCollection` rejection reason, if any. -/
structure MongoEnv where
  collections : List String := []
  timeFormat : String := ""
  batches : List (Except String (List Record)) := []
  bulkOutcome : Nat → Except String Unit := fun _ => Except.ok ()
  test : Option (Except String Unit) := none
  dropOutcome : String → Option String := fun _ => none

/-- `insertData` (mongo-indexer.js lines 196-264).  Same loop as the elastic
one, but the bulk target is `config.collectionName` itself and a driver write
failure surfaces as an exception: the status is `Except.error` and the loop
stops with the report entries written so far (the JS `reports` object has
already been mutated when the exception fires). -/
def insertDataMongo (cfg : MongoConfig) (bulkOutcome : Nat → Except String Unit) :
    List (Except String (List Record)) → Nat →
    List (Nat × BatchReport) × List MongoEvent × Except String Bool
  | [], offset =>
      ([(offset, { callback_logs := some [], callback_succeeded := some true })],
       [MongoEvent.batchCall offset], Except.ok true)
  | b :: rest, offset =>
    match b with
    | Except.error e =>
        ([(offset, { callback_logs := some [], callback_error := some e })],
         [MongoEvent.batchCall offset], Except.ok false)
    | Except.ok items =>
      if items = [] then
        ([(offset, { callback_logs := some [], callback_succeeded := some true })],
         [MongoEvent.batchCall offset], Except.ok true)
      else
        let ops := mongoDocs cfg.keyId items
        match bulkOutcome offset with
        | Except.error e =>
            ([(offset, { callback_logs := some [], callback_succeeded := some true })],
             [MongoEvent.batchCall offset, MongoEvent.bulkWrite cfg.collectionName ops],
             Except.error e)
        | Except.ok _ =>
            let br : BatchReport :=
              { callback_logs := some [], callback_succeeded := some true,
                inserting_succeeded := some true }
            let r := insertDataMongo cfg bulkOutcome rest (offset + items.length)
            ((offset, br) :: r.1,
             MongoEvent.batchCall offset :: MongoEvent.bulkWrite cfg.collectionName ops :: r.2.1,
             r.2.2)

/-- The collections the run works over: names matching `{alias}---` or the
alias itself (mongo-indexer.js lines 60-62). -/
def mongoListCollections (aliasName : String) (collections : List String) : List String :=
  collections.filter (fun n => strStarts (aliasName ++ "---") n || n == aliasName)

/-- `listCollections.find(name => name == config.index)` (line 76). -/
def mongoLastIndex (aliasName : String) (collections : List String) : Option String :=
  (mongoListCollections aliasName collections).find? (fun n => n == aliasName)

/-- Step 1 of `MongoIndexer` (lines 64-92): same mode choice as the elastic
indexer, with `$out` aggregation as the clone primitive. -/
def mongoChoosePhase (cfg : MongoConfig) (env : MongoEnv) : String × List MongoEvent :=
  let freshName := cfg.collectionName ++ "---" ++ env.timeFormat
  match mongoLastIndex cfg.collectionName env.collections with
  | some li =>
    if cfg.mode == some "sync" then (li, [])
    else if cfg.mode == some "clone" then (freshName, [MongoEvent.aggregateOut li freshName])
    else (freshName, [MongoEvent.createCollection freshName])
  | none => (freshName, [MongoEvent.createCollection freshName])

/-- The working collection name of a run. -/
def mongoIndexName (cfg : MongoConfig) (env : MongoEnv) : String :=
  (mongoChoosePhase cfg env).1

/-- The build loop's combined result for a run. -/
def mongoInsert (cfg : MongoConfig) (env : MongoEnv) :
    List (Nat × BatchReport) × List MongoEvent × Except String Bool :=
  insertDataMongo cfg env.bulkOutcome env.batches 0

/-- The `lastIndex && config.mode == 'sync'` guard (lines 79 and 135). -/
def mongoSyncMode (cfg : MongoConfig) (env : MongoEnv) : Bool :=
  (mongoLastIndex cfg.collectionName env.collections).isSome && (cfg.mode == some "sync")

/-- Steps 4-5 of `MongoIndexer` (lines 140-177): the 3-step rename dance
(active → draft name, candidate → alias name, draft → its timestamped name),
then prune the prefix-matching names of the *initial* collection snapshot:
rank newest-first, keep the first `keepAliasesCount ?? 1`, attempt each drop
independently, record each outcome, and mark the run succeeded. -/
def mongoPromote (cfg : MongoConfig) (env : MongoEnv) (indexName : String)
    (r : Report) (evs : List MongoEvent) : Report × List MongoEvent :=
  let aliasName := cfg.collectionName
  let draft := aliasName ++ "---" ++ env.timeFormat ++ "--draf"
  let indicesData := (mongoListCollections aliasName env.collections).filter
    (fun n => strStarts (aliasName ++ "---") n)
  let sorted := jsSort (ltTime (getIndexTime aliasName)) indicesData
  let k := cfg.keepAliasesCount.getD 1
  let rem := sorted.drop k
  ({ r with keepIndices := some (sorted.take k),
            removeIndices := some (rem.map (fun n =>
              (n, match env.dropOutcome n with
                  | none => RemRes.removed
                  | some e => RemRes.failed e))),
            succeeded := some true },
   evs ++ [MongoEvent.renameCollection aliasName draft,
           MongoEvent.renameCollection indexName aliasName,
           MongoEvent.renameCollection draft (aliasName ++ "---" ++ env.timeFormat)]
       ++ rem.map MongoEvent.dropCollection)

/-- `MongoIndexer` (mongo-indexer.js lines 34-187): same phase structure as
`ElasticIndexer`; a driver exception from the build loop lands in the outer
`catch` and is reported as `general_error`. -/
def MongoIndexer (cfg : MongoConfig) (env : MongoEnv) : Report × List MongoEvent :=
  let indexName := mongoIndexName cfg env
  let r1 : Report := { using_index := some indexName, insertData := (mongoInsert cfg env).1 }
  let evs1 := (mongoChoosePhase cfg env).2 ++ (mongoInsert cfg env).2.1
  match (mongoInsert cfg env).2.2 with
  | Except.error e => ({ r1 with general_error := some e }, evs1)
  | Except.ok isDone =>
    if isDone = false then (r1, evs1)
    else
      match env.test with
      | some (Except.error e) =>
          ({ r1 with testing_logs := some [], testing_succeeded := some false,
                     testing_error := some e }, evs1)
      | some (Except.ok _) =>
          let r2 := { r1 with testing_logs := some [], testing_succeeded := some true }
          if mongoSyncMode cfg env then (r2, evs1)
          else mongoPromote cfg env indexName r2 evs1
      | none =>
          if mongoSyncMode cfg env then (r1, evs1)
          else mongoPromote cfg env indexName r1 evs1

/-- Whether an alias action only references indices that exist. -/
def actionIndexExists (cluster : List String) : AliasAction → Bool
  | AliasAction.add (some i) _ => cluster.contains i
  | AliasAction.add none _ => false
  | AliasAction.remove i _ => cluster.contains i

/-- Backend semantics of an elastic `updateAliases` request for one alias: the
request is atomic, so if any referenced index does not exist the whole request
is rejected and the binding is unchanged; otherwise the actions are applied in
order to the set of indices the alias resolves to. -/
def applyAliasActions (cluster bound : List String) (actions : List AliasAction) :
    List String :=
  if actions.all (actionIndexExists cluster) then
    actions.foldl (fun b a =>
      match a with
      | AliasAction.add (some i) _ => (b.filter (fun x => x ≠ i)) ++ [i]
      | AliasAction.add none _ => b
      | AliasAction.remove i _ => b.filter (fun x => x ≠ i)) bound
  else bound

/-- `RestoreElasticIndexer` (elastic-indexer.js lines 297-362).  With a truthy
`lastIndexCount` the target is the n-th entry of the newest-first ranking of
`{alias}---*` (`Math.hypot(n) = n`); otherwise it is the `indexName` argument.
The function then always issues one `updateAliases` request — add the target,
remove every other currently bound index — with `.then/.catch` logging only,
and returns `true` unconditionally.  The result is the returned flag and the
issued actions. -/
def RestoreElasticIndexer (aliasName : String) (indexName : Option String)
    (lastIndexCount : Option Nat) (cluster : List String) (bound : List String) :
    Bool × List AliasAction :=
  let target : Option String :=
    match lastIndexCount with
    | some (n + 1) =>
        let matching := cluster.filter (fun m => strStarts (aliasName ++ "---") m)
        (jsSort (ltTime (getIndexTime aliasName)) matching).get? (n + 1)
    | _ => indexName
  let remaining := bound.filter (fun m => some m ≠ target)
  (true, AliasAction.add target aliasName ::
     remaining.map (fun m => AliasAction.remove m aliasName))

/-- `RestoreMongoIndexer` (mongo-indexer.js lines 281-339).  Same target
resolution over the prefix-matching collections; if the target is not among
them the function logs `'not found'` and returns `false` with no rename
issued; otherwise it renames the active collection to a fresh timestamped
name and the target to the alias name, and returns `true`. -/
def RestoreMongoIndexer (aliasName : String) (indexName : Option String)
    (lastIndexCount : Option Nat) (collections : List String) (timeFormat : String) :
    Bool × List MongoEvent :=
  let listCollections := collections.filter (fun n => strStarts (aliasName ++ "---") n)
  let target : Option String :=
    match lastIndexCount with
    | some (n + 1) =>
        (jsSort (ltTime (getIndexTime aliasName)) listCollections).get? (n + 1)
    | _ => indexName
  match target with
  | some t =>
    if listCollections.contains t then
      (true, [MongoEvent.renameCollection aliasName (aliasName ++ "---" ++ timeFormat),
              MongoEvent.renameCollection t aliasName])
    else (false, [])
  | none => (false, [])

/-- `ElasticIndexerBackups` (elastic-indexer.js lines 377-400): `data` is the
`{alias}---*` index names ranked by the newest-first comparator, `actives` the
(unsorted) subset of those names currently bound to the alias.  `cluster` is
the existing index names and `bound` the per-index alias membership from the
`indices.get` response. -/
def ElasticIndexerBackups (aliasName : String) (cluster : List String)
    (bound : String → Bool) : List String × List String :=
  let keys := cluster.filter (fun n => strStarts (aliasName ++ "---") n)
  (jsSort (ltTime (getIndexTime aliasName)) keys, keys.filter bound)

/-- `MongoIndexerBackups` (mongo-indexer.js lines 354-381): from the
collections matching `{alias}---` or named exactly `alias`, `data` is the
prefix-matching ones ranked newest-first and `actives` the ones named exactly
`alias`. -/
def MongoIndexerBackups (aliasName : String) (collections : List String) :
    List String × List String :=
  let listCollections := mongoListCollections aliasName collections
  let indicesData := listCollections.filter (fun n => strStarts (aliasName ++ "---") n)
  let actives := listCollections.filter (fun n => n == aliasName)
  (jsSort (ltTime (getIndexTime aliasName)) indicesData, actives)

/-- Abstraction of a build-loop trace: the callback calls (with their offsets)
and the bulk writes (with their record counts), in issue order. -/
inductive TraceStep where
  | call (offset : Nat)
  | write (count : Nat)
deriving DecidableEq, Repr

/-- The number of records a bulk body writes: its document lines. -/
def docCount (ops : List BulkLine) : Nat :=
  ops.countP (fun op => match op with | BulkLine.doc _ => true | _ => false)

/-- Trace abstraction of an elastic event list. -/
def elasticTrace (evs : List Event) : List TraceStep :=
  evs.filterMap (fun e =>
    match e with
    | Event.batchCall o => some (TraceStep.call o)
    | Event.bulkWrite _ ops => some (TraceStep.write (docCount ops))
    | _ => none)

/-- Trace abstraction of a mongo event list (one `MongoOp` per record). -/
def mongoTrace (evs : List MongoEvent) : List TraceStep :=
  evs.filterMap (fun e =>
    match e with
    | MongoEvent.batchCall o => some (TraceStep.call o)
    | MongoEvent.bulkWrite _ ops => some (TraceStep.write ops.length)
    | _ => none)

/-- A strictly sequential batch trace starting at offset `o`: calls and writes
alternate, each call is followed by at most one write, the final step is
either a call (the loop ended at that call) or a write (the run aborted inside
that write), and the offset of each call after the first is the previous
call's offset plus the record count of the write between them. -/
inductive SeqFrom : Nat → List TraceStep → Prop
  | done (o : Nat) : SeqFrom o [TraceStep.call o]
  | cut (o n : Nat) : 1 ≤ n → SeqFrom o [TraceStep.call o, TraceStep.write n]
  | step (o n : Nat) (rest : List TraceStep) : 1 ≤ n →
      SeqFrom (o + n) rest →
      SeqFrom o (TraceStep.call o :: TraceStep.write n :: rest)

/-- The record count a batch outcome contributes to the cursor. -/
def okLen : Except String (List Record) → Nat
  | Except.ok l => l.length
  | Except.error _ => 0

/-- The build-loop status of a mongo run: `Except.error` models a driver
exception, `Except.ok` the DONE/FAILED flag. -/
def mongoStatus (cfg : MongoConfig) (env : MongoEnv) : Except String Bool :=
  (mongoInsert cfg env).2.2

/-- The retention ranking of an elastic run: the `{alias}---*` names at step
5, minus the active index, ranked newest-first. -/
def elasticRetention (cfg : ElasticConfig) (env : ElasticEnv) : List String :=
  jsSort (ltTime (getIndexTime cfg.index))
    ((env.cluster5.filter (fun n => strStarts (cfg.index ++ "---") n)).filter
      (fun n => n ≠ elasticIndexName cfg env))

/-- The retention ranking of a mongo run: the prefix-matching names of the
initial collection snapshot, ranked newest-first. -/
def mongoRetention (mcfg : MongoConfig) (menv : MongoEnv) : List String :=
  jsSort (ltTime (getIndexTime mcfg.collectionName))
    ((mongoListCollections mcfg.collectionName menv.collections).filter
      (fun n => strStarts (mcfg.collectionName ++ "---") n))

theorem insertSorted_perm (lt : α → α → Bool) (x : α) :
    ∀ l : List α, (insertSorted lt x l).Perm (x :: l)
  | [] => List.Perm.refl _
  | y :: ys => by
    unfold insertSorted
    by_cases h : lt x y = true
    · simp [h]
    · simp only [h, if_false]
      exact (List.Perm.cons y (insertSorted_perm lt x ys)).trans (List.Perm.swap x y ys)

theorem jsSort_foldl_perm (lt : α → α → Bool) :
    ∀ (l acc : List α), (l.foldl (fun acc x => insertSorted lt x acc) acc).Perm (acc ++ l)
  | [], acc => by simp
  | x :: l, acc => by
    simp only [List.foldl_cons]
    refine (jsSort_foldl_perm lt l (insertSorted lt x acc)).trans ?_
    refine (List.Perm.append_right l (insertSorted_perm lt x acc)).trans ?_
    exact List.perm_middle.symm

/-- The JS sort permutes its input: no element is lost or duplicated, whatever
the comparator does. -/
theorem jsSort_perm (lt : α → α → Bool) (l : List α) : (jsSort lt l).Perm l := by
  simpa [jsSort] using jsSort_foldl_perm lt l []

theorem mem_insertSorted (lt : α → α → Bool) (x z : α) (l : List α) :
    z ∈ insertSorted lt x l ↔ z = x ∨ z ∈ l := by
  rw [(insertSorted_perm lt x l).mem_iff]
  simp

/-- After inserting into a list in which no later element strictly precedes an
earlier one, the property still holds — given that `lt` is asymmetric and that
a tie with a strictly-preceded element cannot strictly precede the predecessor. -/
theorem insertSorted_pairwise (lt : α → α → Bool)
    (hasym : ∀ a b, lt a b = true → lt b a = false)
    (hchain : ∀ x y z, lt x y = true → lt z y = false → lt z x = false)
    (x : α) : ∀ l : List α, l.Pairwise (fun a b => lt b a = false) →
      (insertSorted lt x l).Pairwise (fun a b => lt b a = false)
  | [], _ => by simp [insertSorted]
  | y :: ys, hl => by
    rw [List.pairwise_cons] at hl
    obtain ⟨hy, hys⟩ := hl
    unfold insertSorted
    by_cases h : lt x y = true
    · simp only [h, if_true]
      refine List.Pairwise.cons ?_ (List.Pairwise.cons hy hys)
      intro z hz
      rcases List.mem_cons.mp hz with hz | hz
      · exact hz ▸ hasym x y h
      · exact hchain x y z h (hy z hz)
    · simp only [h, if_false]
      refine List.Pairwise.cons ?_ (insertSorted_pairwise lt hasym hchain x ys hys)
      intro z hz
      rcases (mem_insertSorted lt x z ys).mp hz with hz | hz
      · rw [hz]; exact eq_false_of_ne_true h
      · exact hy z hz

theorem jsSort_foldl_pairwise (lt : α → α → Bool)
    (hasym : ∀ a b, lt a b = true → lt b a = false)
    (hchain : ∀ x y z, lt x y = true → lt z y = false → lt z x = false) :
    ∀ (l acc : List α), acc.Pairwise (fun a b => lt b a = false) →
      (l.foldl (fun acc x => insertSorted lt x acc) acc).Pairwise (fun a b => lt b a = false)
  | [], _, hacc => hacc
  | x :: l, acc, hacc => by
    simp only [List.foldl_cons]
    exact jsSort_foldl_pairwise lt hasym hchain l _
      (insertSorted_pairwise lt hasym hchain x acc hacc)

/-- In a JS-sorted list no later element strictly precedes an earlier one. -/
theorem jsSort_pairwise (lt : α → α → Bool)
    (hasym : ∀ a b, lt a b = true → lt b a = false)
    (hchain : ∀ x y z, lt x y = true → lt z y = false → lt z x = false)
    (l : List α) : (jsSort lt l).Pairwise (fun a b => lt b a = false) :=
  jsSort_foldl_pairwise lt hasym hchain l [] (by simp)

theorem ltTime_asymm (t : String → Option Int) (a b : String) :
    ltTime t a b = true → ltTime t b a = false := by
  unfold ltTime
  cases ha : t a <;> cases hb : t b <;> simp
  omega

theorem ltTime_chain (t : String → Option Int) (x y z : String) :
    ltTime t x y = true → ltTime t z y = false → ltTime t z x = false := by
  unfold ltTime
  cases hx : t x <;> cases hy : t y <;> cases hz : t z <;> simp
  omega

/-- Unparsable names tie with everything under the ranking comparator. -/
theorem ltTime_nan (t : String → Option Int) (m x : String) (hm : t m = none) :
    ltTime t m x = false ∧ ltTime t x m = false := by
  unfold ltTime
  rw [hm]
  cases t x <;> simp

theorem docCount_elasticBulkOperations (keyId : Option String) (idx : String) :
    ∀ items : List Record, docCount (elasticBulkOperations keyId idx items) = items.length
  | [] => rfl
  | item :: items => by
    have ih := docCount_elasticBulkOperations keyId idx items
    simp only [elasticBulkOperations, docCount, List.flatMap_cons, List.countP_append] at *
    simp [ih, List.countP_cons]
    omega

theorem length_mongoDocs (keyId : Option String) (items : List Record) :
    (mongoDocs keyId items).length = items.length := by
  simp [mongoDocs]

/-- Every event the elastic build loop issues is a callback call or a bulk
write into the working index. -/
theorem insertDataElastic_events_shape (keyId : Option String) (idx : String)
    (be : Nat → Option (List String)) :
    ∀ (bs : List (Except String (List Record))) (o : Nat),
      ∀ e ∈ (insertDataElastic keyId idx be bs o).2.1,
        (∃ o2, e = Event.batchCall o2) ∨ ∃ ops, e = Event.bulkWrite idx ops
  | [], o => by
    intro e he
    simp only [insertDataElastic, List.mem_singleton] at he
    exact Or.inl ⟨o, he⟩
  | b :: rest, o => by
    intro e he
    match b with
    | Except.error msg =>
      simp only [insertDataElastic, List.mem_singleton] at he
      exact Or.inl ⟨o, he⟩
    | Except.ok items =>
      by_cases hi : items = []
      · simp only [insertDataElastic, hi, if_true, List.mem_singleton] at he
        exact Or.inl ⟨o, he⟩
      · simp only [insertDataElastic, hi, if_false, List.mem_cons] at he
        rcases he with he | he | he
        · exact Or.inl ⟨o, he⟩
        · exact Or.inr ⟨_, he⟩
        · exact insertDataElastic_events_shape keyId idx be rest (o + items.length) e he

/-- The elastic build loop is strictly sequential: its trace starts with a
call at the given offset, calls and writes alternate, and each later call's
offset is the previous call's offset plus the record count just written. -/
theorem insertDataElastic_seq (keyId : Option String) (idx : String)
    (be : Nat → Option (List String)) :
    ∀ (bs : List (Except String (List Record))) (o : Nat),
      SeqFrom o (elasticTrace (insertDataElastic keyId idx be bs o).2.1)
  | [], o => by
    simp only [insertDataElastic, elasticTrace, List.filterMap_cons, List.filterMap_nil]
    exact SeqFrom.done o
  | b :: rest, o => by
    match b with
    | Except.error msg =>
      simp only [insertDataElastic, elasticTrace, List.filterMap_cons, List.filterMap_nil]
      exact SeqFrom.done o
    | Except.ok items =>
      by_cases hi : items = []
      · simp only [insertDataElastic, hi, if_true, elasticTrace, List.filterMap_cons,
          List.filterMap_nil]
        exact SeqFrom.done o
      · have ih := insertDataElastic_seq keyId idx be rest (o + items.length)
        have hc : docCount (elasticBulkOperations keyId idx items) = items.length :=
          docCount_elasticBulkOperations keyId idx items
        simp only [insertDataElastic, hi, if_false, elasticTrace, List.filterMap_cons]
        rw [hc]
        exact SeqFrom.step o items.length _
          (by cases items with
              | nil => exact absurd rfl hi
              | cons a l => simp) ih

/-- Every event the mongo build loop issues is a callback call or a bulk
write into the alias collection itself. -/
theorem insertDataMongo_events_shape (cfg : MongoConfig)
    (bo : Nat → Except String Unit) :
    ∀ (bs : List (Except String (List Record))) (o : Nat),
      ∀ e ∈ (insertDataMongo cfg bo bs o).2.1,
        (∃ o2, e = MongoEvent.batchCall o2) ∨
          ∃ ops, e = MongoEvent.bulkWrite cfg.collectionName ops
  | [], o => by
    intro e he
    simp only [insertDataMongo, List.mem_singleton] at he
    exact Or.inl ⟨o, he⟩
  | b :: rest, o => by
    intro e he
    match b with
    | Except.error msg =>
      simp only [insertDataMongo, List.mem_singleton] at he
      exact Or.inl ⟨o, he⟩
    | Except.ok items =>
      by_cases hi : items = []
      · simp only [insertDataMongo, hi, if_true, List.mem_singleton] at he
        exact Or.inl ⟨o, he⟩
      · match hbo : bo o with
        | Except.error msg =>
          simp only [insertDataMongo, hi, if_false, hbo, List.mem_cons,
            List.mem_singleton] at he
          rcases he with he | he | he
          · exact Or.inl ⟨o, he⟩
          · exact Or.inr ⟨_, he⟩
          · exact absurd he (List.not_mem_nil e)
        | Except.ok _ =>
          simp only [insertDataMongo, hi, if_false, hbo, List.mem_cons] at he
          rcases he with he | he | he
          · exact Or.inl ⟨o, he⟩
          · exact Or.inr ⟨_, he⟩
          · exact insertDataMongo_events_shape cfg bo rest (o + items.length) e he

/-- The mongo build loop is strictly sequential in the same sense; a driver
write failure cuts the trace right after its write. -/
theorem insertDataMongo_seq (cfg : MongoConfig) (bo : Nat → Except String Unit) :
    ∀ (bs : List (Except String (List Record))) (o : Nat),
      SeqFrom o (mongoTrace (insertDataMongo cfg bo bs o).2.1)
  | [], o => by
    simp only [insertDataMongo, mongoTrace, List.filterMap_cons, List.filterMap_nil]
    exact SeqFrom.done o
  | b :: rest, o => by
    match b with
    | Except.error msg =>
      simp only [insertDataMongo, mongoTrace, List.filterMap_cons, List.filterMap_nil]
      exact SeqFrom.done o
    | Except.ok items =>
      by_cases hi : items = []
      · simp only [insertDataMongo, hi, if_true, mongoTrace, List.filterMap_cons,
          List.filterMap_nil]
        exact SeqFrom.done o
      · have hlen : 1 ≤ items.length := by
          cases items with
          | nil => exact absurd rfl hi
          | cons a l => simp
        match hbo : bo o with
        | Except.error msg =>
          simp only [insertDataMongo, hi, if_false, hbo, mongoTrace, List.filterMap_cons,
            List.filterMap_nil]
          rw [length_mongoDocs]
          exact SeqFrom.cut o items.length hlen
        | Except.ok _ =>
          have ih := insertDataMongo_seq cfg bo rest (o + items.length)
          simp only [insertDataMongo, hi, if_false, hbo, mongoTrace, List.filterMap_cons]
          rw [length_mongoDocs]
          exact SeqFrom.step o items.length _ hlen ih

/-- If the batch callback rejects after a run of non-empty successful batches,
the loop reports FAILED and writes `callback_error` under the offset reached
by that rejecting call. -/
theorem insertDataElastic_fail (keyId : Option String) (idx : String)
    (be : Nat → Option (List String)) (msg : String)
    (rest : List (Except String (List Record))) :
    ∀ (pre : List (Except String (List Record))) (o : Nat),
      (∀ b ∈ pre, ∃ its, b = Except.ok its ∧ its ≠ []) →
      (insertDataElastic keyId idx be (pre ++ Except.error msg :: rest) o).2.2 = false ∧
      (o + (pre.map okLen).sum,
        ({ callback_logs := some [], callback_error := some msg } : BatchReport)) ∈
        (insertDataElastic keyId idx be (pre ++ Except.error msg :: rest) o).1
  | [], o, _ => by
    simp [insertDataElastic]
  | b :: pre, o, hpre => by
    obtain ⟨its, hb, hne⟩ := hpre b (List.mem_cons_self b pre)
    subst hb
    have ih := insertDataElastic_fail keyId idx be msg rest pre (o + its.length)
      (fun b hb => hpre b (List.mem_cons_of_mem _ hb))
    constructor
    · simp only [List.cons_append, insertDataElastic, hne, if_false]
      exact ih.1
    · simp only [List.cons_append, insertDataElastic, hne, if_false,
        List.map_cons, List.sum_cons, okLen]
      rw [show o + (its.length + (pre.map okLen).sum)
            = o + its.length + (pre.map okLen).sum by omega]
      exact List.mem_cons_of_mem _ ih.2

/-- With a failed build loop the run returns right after the loop. -/
theorem ElasticIndexer_fail (cfg : ElasticConfig) (env : ElasticEnv)
    (h : elasticDone cfg env = false) :
    ElasticIndexer cfg env =
      ({ using_index := some (elasticIndexName cfg env),
         insertData := (elasticInsert cfg env).1 },
       (elasticChoosePhase cfg env).2 ++ (elasticInsert cfg env).2.1) := by
  simp [ElasticIndexer, h]

/-- In sync mode the run never issues anything after the build loop and never
writes the promotion/retention report fields. -/
theorem ElasticIndexer_sync (cfg : ElasticConfig) (env : ElasticEnv)
    (h : elasticSyncMode cfg env = true) :
    (ElasticIndexer cfg env).2 =
      (elasticChoosePhase cfg env).2 ++ (elasticInsert cfg env).2.1 ∧
    (ElasticIndexer cfg env).1.removeAliases = none ∧
    (ElasticIndexer cfg env).1.keepIndices = none ∧
    (ElasticIndexer cfg env).1.removeIndices = none ∧
    (ElasticIndexer cfg env).1.succeeded = none := by
  cases hd : elasticDone cfg env with
  | false => simp [ElasticIndexer, hd]
  | true =>
    cases ht : env.test with
    | none => simp [ElasticIndexer, hd, ht, h]
    | some r =>
      cases r with
      | error e => simp [ElasticIndexer, hd, ht]
      | ok u => simp [ElasticIndexer, hd, ht, h]

/-- The report always names the working index chosen in step 1. -/
theorem ElasticIndexer_using_index (cfg : ElasticConfig) (env : ElasticEnv) :
    (ElasticIndexer cfg env).1.using_index = some (elasticIndexName cfg env) := by
  cases hd : elasticDone cfg env with
  | false => simp [ElasticIndexer, hd]
  | true =>
    cases ht : env.test with
    | none =>
      by_cases hs : elasticSyncMode cfg env <;>
        simp [ElasticIndexer, hd, ht, hs, elasticPromote]
    | some r =>
      cases r with
      | error e => simp [ElasticIndexer, hd, ht]
      | ok u =>
        by_cases hs : elasticSyncMode cfg env <;>
          simp [ElasticIndexer, hd, ht, hs, elasticPromote]

/-- Step 1 issues at most one creation event: a create or a reindex copy. -/
theorem elasticChoosePhase_events (cfg : ElasticConfig) (env : ElasticEnv) :
    ∀ e ∈ (elasticChoosePhase cfg env).2,
      (∃ n, e = Event.createIndex n) ∨ ∃ a b, e = Event.reindexCopy a b := by
  intro e he
  unfold elasticChoosePhase at he
  cases hli : lastIndexOf cfg.index env.bound0 with
  | none =>
    simp only [hli, List.mem_singleton] at he
    exact Or.inl ⟨_, he⟩
  | some li =>
    by_cases hs : cfg.mode == some "sync"
    · simp [hli, hs] at he
    · by_cases hc : cfg.mode == some "clone"
      · simp only [hli, hs, hc, if_false, if_true, Bool.false_eq_true,
          List.mem_singleton] at he
        exact Or.inr ⟨_, _, he⟩
      · simp only [hli, hs, hc, if_false, Bool.false_eq_true, List.mem_singleton] at he
        exact Or.inl ⟨_, he⟩

/-- Everything issued up to the end of the build loop is a creation event, a
callback call, or a bulk write into the working index. -/
theorem elastic_evs1_kinds (cfg : ElasticConfig) (env : ElasticEnv) :
    ∀ e ∈ (elasticChoosePhase cfg env).2 ++ (elasticInsert cfg env).2.1,
      (∃ n, e = Event.createIndex n) ∨ (∃ a b, e = Event.reindexCopy a b) ∨
      (∃ o, e = Event.batchCall o) ∨
      ∃ ops, e = Event.bulkWrite (elasticIndexName cfg env) ops := by
  intro e he
  rcases List.mem_append.mp he with he | he
  · rcases elasticChoosePhase_events cfg env e he with h | h
    · exact Or.inl h
    · exact Or.inr (Or.inl h)
  · rcases insertDataElastic_events_shape cfg.keyId (elasticIndexName cfg env)
      env.bulkErrors env.batches 0 e he with h | h
    · exact Or.inr (Or.inr (Or.inl h))
    · exact Or.inr (Or.inr (Or.inr h))

/-- In sync mode over a bound index, step 1 reuses that index and issues
nothing. -/
theorem elasticChoosePhase_sync (cfg : ElasticConfig) (env : ElasticEnv) (li : String)
    (hli : lastIndexOf cfg.index env.bound0 = some li) (hm : cfg.mode = some "sync") :
    elasticChoosePhase cfg env = (li, []) := by
  simp [elasticChoosePhase, hli, hm]

/-- With no bound index, step 1 creates a fresh empty index whatever the mode. -/
theorem elasticChoosePhase_fallback (cfg : ElasticConfig) (env : ElasticEnv)
    (hli : lastIndexOf cfg.index env.bound0 = none) :
    elasticChoosePhase cfg env =
      (cfg.index ++ "---" ++ env.timeFormat,
       [Event.createIndex (cfg.index ++ "---" ++ env.timeFormat)]) := by
  simp [elasticChoosePhase, hli]

/-- A rejecting test callback stops the run right after testing: the report
records the failure and no further backend request is issued. -/
theorem ElasticIndexer_testReject (cfg : ElasticConfig) (env : ElasticEnv) (e : String)
    (hd : elasticDone cfg env = true) (ht : env.test = some (Except.error e)) :
    ElasticIndexer cfg env =
      ({ using_index := some (elasticIndexName cfg env),
         insertData := (elasticInsert cfg env).1,
         testing_logs := some [], testing_succeeded := some false,
         testing_error := some e },
       (elasticChoosePhase cfg env).2 ++ (elasticInsert cfg env).2.1) := by
  simp [ElasticIndexer, hd, ht]

/-- Without a test callback the testing report fields are never written. -/
theorem ElasticIndexer_noTest_testing (cfg : ElasticConfig) (env : ElasticEnv)
    (ht : env.test = none) :
    (ElasticIndexer cfg env).1.testing_succeeded = none ∧
    (ElasticIndexer cfg env).1.testing_error = none := by
  cases hd : elasticDone cfg env with
  | false => simp [ElasticIndexer, hd]
  | true =>
    by_cases hs : elasticSyncMode cfg env <;>
      simp [ElasticIndexer, hd, ht, hs, elasticPromote]

/-- With a DONE loop, a passing (or absent) test and no sync skip, the run
issues an `updateAliases` request. -/
theorem ElasticIndexer_promotes (cfg : ElasticConfig) (env : ElasticEnv)
    (hd : elasticDone cfg env = true) (hs : elasticSyncMode cfg env = false)
    (ht : env.test = none ∨ env.test = some (Except.ok ())) :
    ∃ acts, Event.updateAliases acts ∈ (ElasticIndexer cfg env).2 := by
  refine ⟨AliasAction.add (some (elasticIndexName cfg env)) cfg.index ::
    env.boundAtUpdate.map (fun n => AliasAction.remove n cfg.index), ?_⟩
  rcases ht with ht | ht <;>
    simp [ElasticIndexer, hd, ht, hs, elasticPromote]

/-- Mongo step 1 issues at most one creation event. -/
theorem mongoChoosePhase_events (cfg : MongoConfig) (env : MongoEnv) :
    ∀ e ∈ (mongoChoosePhase cfg env).2,
      (∃ n, e = MongoEvent.createCollection n) ∨ ∃ a b, e = MongoEvent.aggregateOut a b := by
  intro e he
  unfold mongoChoosePhase at he
  cases hli : mongoLastIndex cfg.collectionName env.collections with
  | none =>
    simp only [hli, List.mem_singleton] at he
    exact Or.inl ⟨_, he⟩
  | some li =>
    by_cases hs : cfg.mode == some "sync"
    · simp [hli, hs] at he
    · by_cases hc : cfg.mode == some "clone"
      · simp only [hli, hs, hc, if_false, if_true, Bool.false_eq_true,
          List.mem_singleton] at he
        exact Or.inr ⟨_, _, he⟩
      · simp only [hli, hs, hc, if_false, Bool.false_eq_true, List.mem_singleton] at he
        exact Or.inl ⟨_, he⟩

/-- Everything a mongo run issues up to the end of the build loop is a
creation event, a callback call, or a bulk write into the alias collection. -/
theorem mongo_evs1_kinds (cfg : MongoConfig) (env : MongoEnv) :
    ∀ e ∈ (mongoChoosePhase cfg env).2 ++ (mongoInsert cfg env).2.1,
      (∃ n, e = MongoEvent.createCollection n) ∨ (∃ a b, e = MongoEvent.aggregateOut a b) ∨
      (∃ o, e = MongoEvent.batchCall o) ∨
      ∃ ops, e = MongoEvent.bulkWrite cfg.collectionName ops := by
  intro e he
  rcases List.mem_append.mp he with he | he
  · rcases mongoChoosePhase_events cfg env e he with h | h
    · exact Or.inl h
    · exact Or.inr (Or.inl h)
  · rcases insertDataMongo_events_shape cfg env.bulkOutcome env.batches 0 e he with h | h
    · exact Or.inr (Or.inr (Or.inl h))
    · exact Or.inr (Or.inr (Or.inr h))

/-- A FAILED mongo build loop stops the run right after the loop. -/
theorem MongoIndexer_fail (cfg : MongoConfig) (env : MongoEnv)
    (h : mongoStatus cfg env = Except.ok false) :
    MongoIndexer cfg env =
      ({ using_index := some (mongoIndexName cfg env),
         insertData := (mongoInsert cfg env).1 },
       (mongoChoosePhase cfg env).2 ++ (mongoInsert cfg env).2.1) := by
  unfold mongoStatus at h
  simp [MongoIndexer, h]

/-- A driver exception in the mongo build loop lands in `general_error` and
stops the run right after the loop. -/
theorem MongoIndexer_error (cfg : MongoConfig) (env : MongoEnv) (e : String)
    (h : mongoStatus cfg env = Except.error e) :
    MongoIndexer cfg env =
      ({ using_index := some (mongoIndexName cfg env),
         insertData := (mongoInsert cfg env).1,
         general_error := some e },
       (mongoChoosePhase cfg env).2 ++ (mongoInsert cfg env).2.1) := by
  unfold mongoStatus at h
  simp [MongoIndexer, h]

/-- In sync mode the mongo run never issues anything after the build loop and
never writes the promotion/retention report fields. -/
theorem MongoIndexer_sync (cfg : MongoConfig) (env : MongoEnv)
    (h : mongoSyncMode cfg env = true) :
    (MongoIndexer cfg env).2 =
      (mongoChoosePhase cfg env).2 ++ (mongoInsert cfg env).2.1 ∧
    (MongoIndexer cfg env).1.removeAliases = none ∧
    (MongoIndexer cfg env).1.keepIndices = none ∧
    (MongoIndexer cfg env).1.removeIndices = none ∧
    (MongoIndexer cfg env).1.succeeded = none := by
  cases hst : mongoStatus cfg env with
  | error e =>
    unfold mongoStatus at hst
    simp [MongoIndexer, hst]
  | ok b =>
    unfold mongoStatus at hst
    cases b with
    | false => simp [MongoIndexer, hst]
    | true =>
      cases ht : env.test with
      | none => simp [MongoIndexer, hst, ht, h]
      | some r =>
        cases r with
        | error e => simp [MongoIndexer, hst, ht]
        | ok u => simp [MongoIndexer, hst, ht, h]

/-- A rejecting test callback stops the mongo run right after testing. -/
theorem MongoIndexer_testReject (cfg : MongoConfig) (env : MongoEnv) (e : String)
    (hd : mongoStatus cfg env = Except.ok true) (ht : env.test = some (Except.error e)) :
    MongoIndexer cfg env =
      ({ using_index := some (mongoIndexName cfg env),
         insertData := (mongoInsert cfg env).1,
         testing_logs := some [], testing_succeeded := some false,
         testing_error := some e },
       (mongoChoosePhase cfg env).2 ++ (mongoInsert cfg env).2.1) := by
  unfold mongoStatus at hd
  simp [MongoIndexer, hd, ht]

/-- Without a test callback the mongo testing report fields are never written. -/
theorem MongoIndexer_noTest_testing (cfg : MongoConfig) (env : MongoEnv)
    (ht : env.test = none) :
    (MongoIndexer cfg env).1.testing_succeeded = none ∧
    (MongoIndexer cfg env).1.testing_error = none := by
  cases hst : mongoStatus cfg env with
  | error e =>
    unfold mongoStatus at hst
    simp [MongoIndexer, hst]
  | ok b =>
    unfold mongoStatus at hst
    cases b with
    | false => simp [MongoIndexer, hst]
    | true =>
      by_cases hs : mongoSyncMode cfg env <;>
        simp [MongoIndexer, hst, ht, hs, mongoPromote]

/-- With a DONE loop, a passing (or absent) test and no sync skip, the mongo
run issues the rename dance. -/
theorem MongoIndexer_promotes (cfg : MongoConfig) (env : MongoEnv)
    (hd : mongoStatus cfg env = Except.ok true) (hs : mongoSyncMode cfg env = false)
    (ht : env.test = none ∨ env.test = some (Except.ok ())) :
    MongoEvent.renameCollection (mongoIndexName cfg env) cfg.collectionName ∈
      (MongoIndexer cfg env).2 := by
  unfold mongoStatus at hd
  rcases ht with ht | ht <;>
    simp [MongoIndexer, hd, ht, hs, mongoPromote]

/-- Step-1 and build-loop events are in every run's trace. -/
theorem elastic_evs1_sub (cfg : ElasticConfig) (env : ElasticEnv) :
    ∀ e ∈ (elasticChoosePhase cfg env).2 ++ (elasticInsert cfg env).2.1,
      e ∈ (ElasticIndexer cfg env).2 := by
  intro e he
  have hsplit := List.mem_append.mp he
  cases hd : elasticDone cfg env with
  | false => simpa [ElasticIndexer, hd] using he
  | true =>
    cases ht : env.test with
    | none =>
      by_cases hs : elasticSyncMode cfg env
      · simpa [ElasticIndexer, hd, ht, hs] using he
      · simp [ElasticIndexer, hd, ht, hs, elasticPromote, List.mem_append]
        tauto
    | some r =>
      cases r with
      | error e2 => simpa [ElasticIndexer, hd, ht] using he
      | ok u =>
        by_cases hs : elasticSyncMode cfg env
        · simpa [ElasticIndexer, hd, ht, hs] using he
        · simp [ElasticIndexer, hd, ht, hs, elasticPromote, List.mem_append]
          tauto

/-- An alias name never matches its own `{alias}---` naming convention. -/
theorem strStarts_triple_dash (a : String) : strStarts (a ++ "---") a = false := by
  unfold strStarts
  by_contra hne
  rw [Bool.not_eq_false] at hne
  have hdata : (a ++ "---").data = a.data ++ "---".data := rfl
  rw [hdata] at hne
  have hlen := (List.isPrefixOf_iff_prefix.mp hne).length_le
  rw [List.length_append] at hlen
  have h3 : ("---".data).length = 3 := rfl
  omega

/-- Claim C1 (code bug, evaluation at the failing input): the claim says a
record carrying `deleted: true` makes `insertData` emit a delete operation
keyed by the record's key field, so the document is absent from the candidate.
The mongo writer does exactly that, but the elastic writer keys the choice on
the `delete` field: the tombstone `{id: 7, deleted: true}` gets an `index`
(upsert) action and document `7` is present in the candidate after the bulk
is applied; and a record carrying `delete: true` instead yields a malformed
bulk body (a document line right after the delete action line), so the
elastic delete path cannot work at all. -/
theorem C1_tombstone_eval :
    elasticBulkOperations none "articles---t"
        [[("id", JVal.vNum 7), ("deleted", JVal.vBool true)]] =
      [BulkLine.act false "articles---t" (JVal.vNum 7),
       BulkLine.doc [("id", JVal.vNum 7), ("deleted", JVal.vBool true)]] ∧
    (applyBulk (elasticBulkOperations none "articles---t"
        [[("id", JVal.vNum 7), ("deleted", JVal.vBool true)]]) []).map
      (fun docs => (List.lookup (JVal.vNum 7) docs).isSome) = some true ∧
    applyBulk (elasticBulkOperations none "articles---t"
        [[("id", JVal.vNum 7), ("delete", JVal.vBool true)]]) [] = none ∧
    mongoDocs none [[("_id", JVal.vNum 7), ("deleted", JVal.vBool true)]] =
      [MongoOp.deleteOne [("_id", JVal.vNum 7)]] := by
  decide

/-- Claim C4, counterexample: a name whose timestamp fails to parse is *not*
treated as the oldest possible instant — its parse is `NaN`, every comparison
with it is a tie, and the stable sort leaves it where it was, so here the
malformed name ranks *before* the well-formed one in the newest-first
output. -/
theorem C4_malformed_rank_counterexample :
    getIndexTime "a" "a---zzz" = none ∧
    (getIndexTime "a" "a---1.2.2026_10-00-00").isSome = true ∧
    jsSort (ltTime (getIndexTime "a")) ["a---zzz", "a---1.2.2026_10-00-00"] =
      ["a---zzz", "a---1.2.2026_10-00-00"] := by
  decide

/-- Claim C4, amended: the timestamp parser never throws — an unparsable name
yields `NaN` (`none`) — and under the ranking comparator such a name ties with
every other name on both sides, so the sort still returns a permutation of its
input (one malformed name cannot abort retention or backup listing), but
malformed names keep their enumeration position instead of ranking after every
well-formed name. -/
theorem C4_malformed_time_amended (aliasName : String) (l : List String)
    (m x : String) (hm : getIndexTime aliasName m = none) :
    (jsSort (ltTime (getIndexTime aliasName)) l).Perm l ∧
    ltTime (getIndexTime aliasName) m x = false ∧
    ltTime (getIndexTime aliasName) x m = false :=
  ⟨jsSort_perm _ l, (ltTime_nan _ m x hm).1, (ltTime_nan _ m x hm).2⟩

/-- Witness for C4: the amended theorem applied at a concrete malformed name. -/
theorem C4_witness :
    (jsSort (ltTime (getIndexTime "a")) ["a---zzz"]).Perm ["a---zzz"] ∧
    ltTime (getIndexTime "a") "a---zzz" "a---1.2.2026_10-00-00" = false ∧
    ltTime (getIndexTime "a") "a---1.2.2026_10-00-00" "a---zzz" = false :=
  C4_malformed_time_amended "a" ["a---zzz"] "a---zzz" "a---1.2.2026_10-00-00"
    (by decide)

/-- Claim C8, counterexample: in the mongo lister the active collection (the
one named exactly like the alias) is *not* a subset of `data` — it never
matches the `{alias}---` convention `data` is drawn from; and ties of equal
parsed timestamps are *not* broken by name: the elastic lister keeps the
backend's enumeration order, here the lexicographically larger name first. -/
theorem C8_backups_counterexample :
    (MongoIndexerBackups "articles" ["articles", "articles---1.2.2026_10-00-00"]).2 =
      ["articles"] ∧
    "articles" ∉
      (MongoIndexerBackups "articles" ["articles", "articles---1.2.2026_10-00-00"]).1 ∧
    getIndexTime "a" "a---1.2.2026_10-00-00" = getIndexTime "a" "a---01.2.2026_10-00-00" ∧
    (ElasticIndexerBackups "a" ["a---1.2.2026_10-00-00", "a---01.2.2026_10-00-00"]
        (fun _ => false)).1 =
      ["a---1.2.2026_10-00-00", "a---01.2.2026_10-00-00"] := by
  decide

/-- Claim C8, amended: both listers return as `data` a permutation of the
indices matching the `{alias}---` convention in which no later entry has a
strictly newer parsed timestamp than an earlier one (ties are left in
enumeration order, not broken by name).  The elastic `actives` is the subset
of the matching indices currently bound to the alias, hence contained in
`data`; the mongo `actives` is the collections named exactly like the alias,
which are never members of `data`. -/
theorem C8_backups_amended (aliasName : String) (cluster : List String)
    (bound : String → Bool) (collections : List String) :
    ((ElasticIndexerBackups aliasName cluster bound).1.Perm
        (cluster.filter (fun n => strStarts (aliasName ++ "---") n)) ∧
     (ElasticIndexerBackups aliasName cluster bound).1.Pairwise
        (fun a b => ltTime (getIndexTime aliasName) b a = false) ∧
     (ElasticIndexerBackups aliasName cluster bound).2 =
        (cluster.filter (fun n => strStarts (aliasName ++ "---") n)).filter bound ∧
     (∀ x ∈ (ElasticIndexerBackups aliasName cluster bound).2,
        x ∈ (ElasticIndexerBackups aliasName cluster bound).1)) ∧
    ((MongoIndexerBackups aliasName collections).1.Perm
        ((mongoListCollections aliasName collections).filter
          (fun n => strStarts (aliasName ++ "---") n)) ∧
     (MongoIndexerBackups aliasName collections).1.Pairwise
        (fun a b => ltTime (getIndexTime aliasName) b a = false) ∧
     (∀ x ∈ (MongoIndexerBackups aliasName collections).2, x = aliasName) ∧
     (∀ x ∈ (MongoIndexerBackups aliasName collections).2,
        x ∉ (MongoIndexerBackups aliasName collections).1)) := by
  refine ⟨⟨jsSort_perm _ _, ?_, rfl, ?_⟩, ⟨jsSort_perm _ _, ?_, ?_, ?_⟩⟩
  · exact jsSort_pairwise _ (ltTime_asymm _) (ltTime_chain _) _
  · intro x hx
    have hx2 : x ∈ cluster.filter (fun n => strStarts (aliasName ++ "---") n) :=
      List.mem_of_mem_filter hx
    exact (jsSort_perm _ _).mem_iff.mpr hx2
  · exact jsSort_pairwise _ (ltTime_asymm _) (ltTime_chain _) _
  · intro x hx
    have := List.of_mem_filter hx
    simpa using this
  · intro x hx hx1
    have hxa : x = aliasName := by
      have := List.of_mem_filter hx
      simpa using this
    have hx2 : x ∈ (mongoListCollections aliasName collections).filter
        (fun n => strStarts (aliasName ++ "---") n) :=
      (jsSort_perm _ _).mem_iff.mp hx1
    have hpref : strStarts (aliasName ++ "---") x = true := List.of_mem_filter hx2
    rw [hxa] at hpref
    rw [strStarts_triple_dash aliasName] at hpref
    exact Bool.false_ne_true hpref

/-- Witness for C8: the amended theorem applied at concrete states, its
membership hypothesis discharged by evaluation. -/
theorem C8_witness :
    "articles" ∉
      (MongoIndexerBackups "articles" ["articles", "articles---1.2.2026_10-00-00"]).1 :=
  (C8_backups_amended "articles" [] (fun _ => false)
      ["articles", "articles---1.2.2026_10-00-00"]).2.2.2.2 "articles" (by decide)

/-- Claim C3, counterexample: `RestoreElasticIndexer` asked to restore a
backup name that does not exist among the `{alias}---` indices still returns
`true` (success).  The alias update it issues would be rejected atomically by
the backend (so the binding is indeed unchanged and the failure is logged),
but the call reports success. -/
theorem C3_restore_missing_counterexample :
    (RestoreElasticIndexer "articles" (some "articles---missing") none
        ["articles---a"] ["articles---a"]).1 = true ∧
    "articles---missing" ∉ (["articles---a"] : List String) ∧
    applyAliasActions ["articles---a"] ["articles---a"]
      (RestoreElasticIndexer "articles" (some "articles---missing") none
        ["articles---a"] ["articles---a"]).2 = ["articles---a"] := by
  decide

/-- Claim C3, amended: when the requested backup name does not exist among the
indices matching the alias-prefix convention, `RestoreMongoIndexer` is a
reported no-op that returns `false`; `RestoreElasticIndexer` issues the alias
update anyway — the atomic request fails against the backend, leaving the
binding unchanged, and the failure is only logged — and still returns
`true`. -/
theorem C3_restore_missing_amended (aliasName name : String)
    (collections cluster bound : List String) (timeFormat : String)
    (hm : name ∉ collections.filter (fun n => strStarts (aliasName ++ "---") n))
    (he : name ∉ cluster) :
    RestoreMongoIndexer aliasName (some name) none collections timeFormat =
      (false, []) ∧
    (RestoreElasticIndexer aliasName (some name) none cluster bound).1 = true ∧
    applyAliasActions cluster bound
      (RestoreElasticIndexer aliasName (some name) none cluster bound).2 = bound := by
  refine ⟨?_, rfl, ?_⟩
  · simp only [RestoreMongoIndexer]
    rw [if_neg (by simpa using hm)]
  · simp only [RestoreElasticIndexer, applyAliasActions, List.all_cons,
      actionIndexExists]
    rw [if_neg]
    intro hall
    simp only [Bool.and_eq_true] at hall
    exact he (by simpa using hall.1)

/-- Witness for C3: the amended theorem applied at the concrete states of the
counterexample. -/
theorem C3_witness :
    RestoreMongoIndexer "articles" (some "articles---missing") none
      ["articles---a"] "t" = (false, []) ∧
    (RestoreElasticIndexer "articles" (some "articles---missing") none
      ["articles---a"] ["articles---a"]).1 = true ∧
    applyAliasActions ["articles---a"] ["articles---a"]
      (RestoreElasticIndexer "articles" (some "articles---missing") none
        ["articles---a"] ["articles---a"]).2 = ["articles---a"] :=
  C3_restore_missing_amended "articles" "articles---missing" ["articles---a"]
    ["articles---a"] ["articles---a"] "t" (by decide) (by decide)

/-- Claim C2: if the batch callback rejects — after any run of non-empty
successful batches, including on its very first call at offset 0 — the build
loop ends FAILED, the report records `callback_error` at the offset that call
received (the sum of the previous batch lengths), `succeeded` is never
written, the run issues nothing beyond the step-1 and build-loop events (so no
alias update is issued and the alias binding is untouched), and the candidate
is left with exactly the writes that had completed. -/
theorem C2_batch_rejection_aborts (cfg : ElasticConfig) (env : ElasticEnv)
    (pre rest : List (Except String (List Record))) (msg : String)
    (hb : env.batches = pre ++ Except.error msg :: rest)
    (hpre : ∀ b ∈ pre, ∃ its, b = Except.ok its ∧ its ≠ []) :
    elasticDone cfg env = false ∧
    ((pre.map okLen).sum,
      ({ callback_logs := some [], callback_error := some msg } : BatchReport)) ∈
      (ElasticIndexer cfg env).1.insertData ∧
    (ElasticIndexer cfg env).1.succeeded = none ∧
    (ElasticIndexer cfg env).2 =
      (elasticChoosePhase cfg env).2 ++ (elasticInsert cfg env).2.1 ∧
    ∀ acts, Event.updateAliases acts ∉ (ElasticIndexer cfg env).2 := by
  have hfail := insertDataElastic_fail cfg.keyId (elasticIndexName cfg env)
    env.bulkErrors msg rest pre 0 hpre
  have hins1 : (elasticInsert cfg env).1 =
      (insertDataElastic cfg.keyId (elasticIndexName cfg env) env.bulkErrors
        (pre ++ Except.error msg :: rest) 0).1 := by
    unfold elasticInsert
    rw [hb]
  have hdone : elasticDone cfg env = false := by
    unfold elasticDone elasticInsert
    rw [hb]
    exact hfail.1
  have heq := ElasticIndexer_fail cfg env hdone
  refine ⟨hdone, ?_, ?_, ?_, ?_⟩
  · rw [heq]
    show ((pre.map okLen).sum, _) ∈ (elasticInsert cfg env).1
    rw [hins1]
    simpa using hfail.2
  · rw [heq]
  · rw [heq]
  · intro acts hmem
    rw [heq] at hmem
    rcases elastic_evs1_kinds cfg env _ hmem with ⟨n, h⟩ | ⟨a, b, h⟩ | ⟨o, h⟩ | ⟨ops, h⟩ <;>
      simp at h

/-- Witness for C2: a rejection on the very first call, at offset 0. -/
theorem C2_witness :
    elasticDone { index := "articles" }
      { batches := [Except.error "boom"], timeFormat := "1.2.2026_10-00-00" } = false ∧
    ((0 : Nat),
      ({ callback_logs := some [], callback_error := some "boom" } : BatchReport)) ∈
      (ElasticIndexer { index := "articles" }
        { batches := [Except.error "boom"], timeFormat := "1.2.2026_10-00-00" }).1.insertData ∧
    (ElasticIndexer { index := "articles" }
      { batches := [Except.error "boom"], timeFormat := "1.2.2026_10-00-00" }).1.succeeded = none := by
  have h := C2_batch_rejection_aborts { index := "articles" }
    { batches := [Except.error "boom"], timeFormat := "1.2.2026_10-00-00" }
    [] [] "boom" (by rfl) (by intro b hb; exact absurd hb (List.not_mem_nil b))
  exact ⟨h.1, by simpa using h.2.1, h.2.2.1⟩

/-- Claim C5: in sync mode with a bound index the run reuses the live index —
`using_index` is that index, no index is created or reindex-copied, every bulk
write targets it, and whatever the test outcome no alias update and no
deletion is ever issued; and with no bound index, clone and sync mode fall
back to creating a fresh empty candidate named `{alias}---{timeFormat}`. -/
theorem C5_sync_and_fallback (cfg : ElasticConfig) (env : ElasticEnv) :
    (∀ li, lastIndexOf cfg.index env.bound0 = some li → cfg.mode = some "sync" →
      (ElasticIndexer cfg env).1.using_index = some li ∧
      (∀ n, Event.createIndex n ∉ (ElasticIndexer cfg env).2) ∧
      (∀ a b, Event.reindexCopy a b ∉ (ElasticIndexer cfg env).2) ∧
      (∀ acts, Event.updateAliases acts ∉ (ElasticIndexer cfg env).2) ∧
      (∀ n, Event.deleteIndex n ∉ (ElasticIndexer cfg env).2) ∧
      (∀ i ops, Event.bulkWrite i ops ∈ (ElasticIndexer cfg env).2 → i = li)) ∧
    (lastIndexOf cfg.index env.bound0 = none →
      (cfg.mode = some "clone" ∨ cfg.mode = some "sync") →
      (ElasticIndexer cfg env).1.using_index =
        some (cfg.index ++ "---" ++ env.timeFormat) ∧
      Event.createIndex (cfg.index ++ "---" ++ env.timeFormat) ∈
        (ElasticIndexer cfg env).2) := by
  constructor
  · intro li hli hm
    have hsync : elasticSyncMode cfg env = true := by
      simp [elasticSyncMode, hli, hm]
    have hcp := elasticChoosePhase_sync cfg env li hli hm
    have hname : elasticIndexName cfg env = li := by
      unfold elasticIndexName
      rw [hcp]
    have hevs : (ElasticIndexer cfg env).2 = (elasticInsert cfg env).2.1 := by
      rw [(ElasticIndexer_sync cfg env hsync).1, hcp]
      rfl
    have hshape : ∀ e ∈ (elasticInsert cfg env).2.1,
        (∃ o2, e = Event.batchCall o2) ∨
          ∃ ops, e = Event.bulkWrite (elasticIndexName cfg env) ops :=
      insertDataElastic_events_shape cfg.keyId (elasticIndexName cfg env)
        env.bulkErrors env.batches 0
    refine ⟨?_, ?_, ?_, ?_, ?_, ?_⟩
    · rw [ElasticIndexer_using_index cfg env, hname]
    · intro n hn
      rw [hevs] at hn
      rcases hshape _ hn with ⟨o, h⟩ | ⟨ops, h⟩ <;> simp at h
    · intro a b hn
      rw [hevs] at hn
      rcases hshape _ hn with ⟨o, h⟩ | ⟨ops, h⟩ <;> simp at h
    · intro acts hn
      rw [hevs] at hn
      rcases hshape _ hn with ⟨o, h⟩ | ⟨ops, h⟩ <;> simp at h
    · intro n hn
      rw [hevs] at hn
      rcases hshape _ hn with ⟨o, h⟩ | ⟨ops, h⟩ <;> simp at h
    · intro i ops hn
      rw [hevs] at hn
      rcases hshape _ hn with ⟨o, h⟩ | ⟨ops2, h⟩
      · simp at h
      · rw [← hname]
        injection h with h1 h2
  · intro hli hmode
    have hcp := elasticChoosePhase_fallback cfg env hli
    have hname : elasticIndexName cfg env = cfg.index ++ "---" ++ env.timeFormat := by
      unfold elasticIndexName
      rw [hcp]
    refine ⟨?_, ?_⟩
    · rw [ElasticIndexer_using_index cfg env, hname]
    · apply elastic_evs1_sub
      apply List.mem_append_left
      rw [hcp]
      exact List.mem_singleton.mpr rfl

/-- Witness for C5: both halves applied at concrete runs — a sync run over a
bound index, and a sync run with nothing bound. -/
theorem C5_witness :
    (ElasticIndexer { index := "a", mode := some "sync" }
      { bound0 := ["a---1.2.2026_10-00-00"], timeFormat := "2.2.2026_10-00-00",
        batches := [] }).1.using_index = some "a---1.2.2026_10-00-00" ∧
    (ElasticIndexer { index := "a", mode := some "sync" }
      { bound0 := [], timeFormat := "2.2.2026_10-00-00",
        batches := [] }).1.using_index = some "a---2.2.2026_10-00-00" ∧
    Event.createIndex "a---2.2.2026_10-00-00" ∈
      (ElasticIndexer { index := "a", mode := some "sync" }
        { bound0 := [], timeFormat := "2.2.2026_10-00-00", batches := [] }).2 := by
  have h1 := (C5_sync_and_fallback { index := "a", mode := some "sync" }
    { bound0 := ["a---1.2.2026_10-00-00"], timeFormat := "2.2.2026_10-00-00",
      batches := [] }).1 "a---1.2.2026_10-00-00" (by decide) rfl
  have h2 := (C5_sync_and_fallback { index := "a", mode := some "sync" }
    { bound0 := [], timeFormat := "2.2.2026_10-00-00", batches := [] }).2
    (by decide) (Or.inr rfl)
  exact ⟨h1.1, h2.1, h2.2⟩

/-- Claim C6: the validator runs only when the build loop terminated DONE and
a test callback was supplied — without a callback, or with a FAILED loop (or,
for mongo, a driver exception), the testing report fields are never written;
without a callback a DONE non-sync run still proceeds to promotion (an
automatic pass); and when the callback rejects only promotion is skipped: the
report records `testing_succeeded: false` with the reason in `testing_error`,
and no alias update, rename, index deletion — in particular not of the
candidate, which stays queryable by name — is issued. -/
theorem C6_validator_gating (cfg : ElasticConfig) (env : ElasticEnv)
    (mcfg : MongoConfig) (menv : MongoEnv) :
    ((env.test = none →
      (ElasticIndexer cfg env).1.testing_succeeded = none ∧
      (ElasticIndexer cfg env).1.testing_error = none) ∧
     (elasticDone cfg env = false →
      (ElasticIndexer cfg env).1.testing_succeeded = none ∧
      (ElasticIndexer cfg env).1.testing_error = none) ∧
     (∀ e, elasticDone cfg env = true → env.test = some (Except.error e) →
      (ElasticIndexer cfg env).1.testing_succeeded = some false ∧
      (ElasticIndexer cfg env).1.testing_error = some e ∧
      (∀ acts, Event.updateAliases acts ∉ (ElasticIndexer cfg env).2) ∧
      (∀ n, Event.deleteIndex n ∉ (ElasticIndexer cfg env).2)) ∧
     (elasticDone cfg env = true → elasticSyncMode cfg env = false →
      env.test = none →
      ∃ acts, Event.updateAliases acts ∈ (ElasticIndexer cfg env).2)) ∧
    ((menv.test = none →
      (MongoIndexer mcfg menv).1.testing_succeeded = none ∧
      (MongoIndexer mcfg menv).1.testing_error = none) ∧
     (mongoStatus mcfg menv = Except.ok false →
      (MongoIndexer mcfg menv).1.testing_succeeded = none ∧
      (MongoIndexer mcfg menv).1.testing_error = none) ∧
     (∀ e, mongoStatus mcfg menv = Except.error e →
      (MongoIndexer mcfg menv).1.testing_succeeded = none ∧
      (MongoIndexer mcfg menv).1.testing_error = none) ∧
     (∀ e, mongoStatus mcfg menv = Except.ok true →
      menv.test = some (Except.error e) →
      (MongoIndexer mcfg menv).1.testing_succeeded = some false ∧
      (MongoIndexer mcfg menv).1.testing_error = some e ∧
      (∀ a b, MongoEvent.renameCollection a b ∉ (MongoIndexer mcfg menv).2) ∧
      (∀ n, MongoEvent.dropCollection n ∉ (MongoIndexer mcfg menv).2)) ∧
     (mongoStatus mcfg menv = Except.ok true → mongoSyncMode mcfg menv = false →
      menv.test = none →
      MongoEvent.renameCollection (mongoIndexName mcfg menv) mcfg.collectionName ∈
        (MongoIndexer mcfg menv).2)) := by
  refine ⟨⟨?_, ?_, ?_, ?_⟩, ⟨?_, ?_, ?_, ?_, ?_⟩⟩
  · exact fun ht => ElasticIndexer_noTest_testing cfg env ht
  · intro hd
    rw [ElasticIndexer_fail cfg env hd]
    exact ⟨rfl, rfl⟩
  · intro e hd ht
    have heq := ElasticIndexer_testReject cfg env e hd ht
    refine ⟨by rw [heq], by rw [heq], ?_, ?_⟩
    · intro acts hmem
      rw [heq] at hmem
      rcases elastic_evs1_kinds cfg env _ hmem with ⟨n, h⟩ | ⟨a, b, h⟩ | ⟨o, h⟩ | ⟨ops, h⟩ <;>
        simp at h
    · intro n hmem
      rw [heq] at hmem
      rcases elastic_evs1_kinds cfg env _ hmem with ⟨n2, h⟩ | ⟨a, b, h⟩ | ⟨o, h⟩ | ⟨ops, h⟩ <;>
        simp at h
  · exact fun hd hs ht => ElasticIndexer_promotes cfg env hd hs (Or.inl ht)
  · exact fun ht => MongoIndexer_noTest_testing mcfg menv ht
  · intro hd
    rw [MongoIndexer_fail mcfg menv hd]
    exact ⟨rfl, rfl⟩
  · intro e he
    rw [MongoIndexer_error mcfg menv e he]
    exact ⟨rfl, rfl⟩
  · intro e hd ht
    have heq := MongoIndexer_testReject mcfg menv e hd ht
    refine ⟨by rw [heq], by rw [heq], ?_, ?_⟩
    · intro a b hmem
      rw [heq] at hmem
      rcases mongo_evs1_kinds mcfg menv _ hmem with ⟨n, h⟩ | ⟨a2, b2, h⟩ | ⟨o, h⟩ | ⟨ops, h⟩ <;>
        simp at h
    · intro n hmem
      rw [heq] at hmem
      rcases mongo_evs1_kinds mcfg menv _ hmem with ⟨n2, h⟩ | ⟨a2, b2, h⟩ | ⟨o, h⟩ | ⟨ops, h⟩ <;>
        simp at h
  · exact fun hd hs ht => MongoIndexer_promotes mcfg menv hd hs (Or.inl ht)

/-- Witness for C6: the rejection branch applied at concrete runs of both
indexers (one successful empty batch, then a rejecting test callback). -/
theorem C6_witness :
    (ElasticIndexer { index := "a" }
      { timeFormat := "1.2.2026_10-00-00", batches := [Except.ok []],
        test := some (Except.error "bad data") }).1.testing_succeeded = some false ∧
    (ElasticIndexer { index := "a" }
      { timeFormat := "1.2.2026_10-00-00", batches := [Except.ok []],
        test := some (Except.error "bad data") }).1.testing_error = some "bad data" ∧
    (MongoIndexer { collectionName := "a" }
      { timeFormat := "1.2.2026_10-00-00", batches := [Except.ok []],
        test := some (Except.error "bad data") }).1.testing_succeeded = some false := by
  have he := ((C6_validator_gating { index := "a" }
    { timeFormat := "1.2.2026_10-00-00", batches := [Except.ok []],
      test := some (Except.error "bad data") }
    { collectionName := "a" }
    { timeFormat := "1.2.2026_10-00-00", batches := [Except.ok []],
      test := some (Except.error "bad data") }))
  exact ⟨(he.1.2.2.1 "bad data" (by decide) rfl).1,
         (he.1.2.2.1 "bad data" (by decide) rfl).2.1,
         (he.2.2.2.2.1 "bad data" (by rfl) rfl).1⟩

/-- Claim C7: when a run reaches retention (loop DONE, test passing or
absent, no sync skip), it ranks the prefix-matching indices minus the active
one newest-first, keeps the first `keepAliasesCount` (default 1) and reports
them as `keepIndices`, attempts to delete each of the rest independently —
recording `true` or the error string per name in `removeIndices`, a failed
deletion never blocking the others — and still ends with `succeeded: true`
whatever the deletion outcomes. -/
theorem C7_retention (cfg : ElasticConfig) (env : ElasticEnv)
    (mcfg : MongoConfig) (menv : MongoEnv)
    (hd : elasticDone cfg env = true) (hs : elasticSyncMode cfg env = false)
    (ht : env.test = none ∨ env.test = some (Except.ok ()))
    (mhd : mongoStatus mcfg menv = Except.ok true)
    (mhs : mongoSyncMode mcfg menv = false)
    (mht : menv.test = none ∨ menv.test = some (Except.ok ())) :
    ((ElasticIndexer cfg env).1.keepIndices =
        some ((elasticRetention cfg env).take (cfg.keepAliasesCount.getD 1)) ∧
     (ElasticIndexer cfg env).1.removeIndices =
        some (((elasticRetention cfg env).drop (cfg.keepAliasesCount.getD 1)).map
          (fun n => (n, match env.deleteOutcome n with
                        | none => RemRes.removed
                        | some e => RemRes.failed e))) ∧
     (ElasticIndexer cfg env).1.succeeded = some true ∧
     (∀ n ∈ (elasticRetention cfg env).drop (cfg.keepAliasesCount.getD 1),
        Event.deleteIndex n ∈ (ElasticIndexer cfg env).2) ∧
     (elasticRetention cfg env).Perm
        ((env.cluster5.filter (fun n => strStarts (cfg.index ++ "---") n)).filter
          (fun n => n ≠ elasticIndexName cfg env)) ∧
     (elasticRetention cfg env).Pairwise
        (fun a b => ltTime (getIndexTime cfg.index) b a = false)) ∧
    ((MongoIndexer mcfg menv).1.keepIndices =
        some ((mongoRetention mcfg menv).take (mcfg.keepAliasesCount.getD 1)) ∧
     (MongoIndexer mcfg menv).1.removeIndices =
        some (((mongoRetention mcfg menv).drop (mcfg.keepAliasesCount.getD 1)).map
          (fun n => (n, match menv.dropOutcome n with
                        | none => RemRes.removed
                        | some e => RemRes.failed e))) ∧
     (MongoIndexer mcfg menv).1.succeeded = some true ∧
     (∀ n ∈ (mongoRetention mcfg menv).drop (mcfg.keepAliasesCount.getD 1),
        MongoEvent.dropCollection n ∈ (MongoIndexer mcfg menv).2) ∧
     (mongoRetention mcfg menv).Perm
        ((mongoListCollections mcfg.collectionName menv.collections).filter
          (fun n => strStarts (mcfg.collectionName ++ "---") n)) ∧
     (mongoRetention mcfg menv).Pairwise
        (fun a b => ltTime (getIndexTime mcfg.collectionName) b a = false)) := by
  have mhd2 : (mongoInsert mcfg menv).2.2 = Except.ok true := mhd
  refine ⟨⟨?_, ?_, ?_, ?_, jsSort_perm _ _,
           jsSort_pairwise _ (ltTime_asymm _) (ltTime_chain _) _⟩,
          ⟨?_, ?_, ?_, ?_, jsSort_perm _ _,
           jsSort_pairwise _ (ltTime_asymm _) (ltTime_chain _) _⟩⟩
  · rcases ht with ht | ht <;>
      simp [ElasticIndexer, hd, hs, ht, elasticPromote, elasticRetention]
  · rcases ht with ht | ht <;>
      simp [ElasticIndexer, hd, hs, ht, elasticPromote, elasticRetention]
  · rcases ht with ht | ht <;>
      simp [ElasticIndexer, hd, hs, ht, elasticPromote]
  · have hevs : (ElasticIndexer cfg env).2 =
        ((elasticChoosePhase cfg env).2 ++ (elasticInsert cfg env).2.1) ++
          [Event.updateAliases
            (AliasAction.add (some (elasticIndexName cfg env)) cfg.index ::
              env.boundAtUpdate.map (fun n => AliasAction.remove n cfg.index))] ++
          ((elasticRetention cfg env).drop (cfg.keepAliasesCount.getD 1)).map
            Event.deleteIndex := by
      rcases ht with ht | ht <;>
        simp [ElasticIndexer, hd, hs, ht, elasticPromote, elasticRetention]
    intro n hn
    rw [hevs]
    exact List.mem_append_right _ (List.mem_map_of_mem _ hn)
  · rcases mht with mht | mht <;>
      simp [MongoIndexer, mhd2, mhs, mht, mongoPromote, mongoRetention]
  · rcases mht with mht | mht <;>
      simp [MongoIndexer, mhd2, mhs, mht, mongoPromote, mongoRetention]
  · rcases mht with mht | mht <;>
      simp [MongoIndexer, mhd2, mhs, mht, mongoPromote]
  · have hevs : (MongoIndexer mcfg menv).2 =
        ((mongoChoosePhase mcfg menv).2 ++ (mongoInsert mcfg menv).2.1) ++
          [MongoEvent.renameCollection mcfg.collectionName
             (mcfg.collectionName ++ "---" ++ menv.timeFormat ++ "--draf"),
           MongoEvent.renameCollection (mongoIndexName mcfg menv) mcfg.collectionName,
           MongoEvent.renameCollection
             (mcfg.collectionName ++ "---" ++ menv.timeFormat ++ "--draf")
             (mcfg.collectionName ++ "---" ++ menv.timeFormat)] ++
          ((mongoRetention mcfg menv).drop (mcfg.keepAliasesCount.getD 1)).map
            MongoEvent.dropCollection := by
      rcases mht with mht | mht <;>
        simp [MongoIndexer, mhd2, mhs, mht, mongoPromote, mongoRetention]
    intro n hn
    rw [hevs]
    exact List.mem_append_right _ (List.mem_map_of_mem _ hn)

/-- Witness for C7: concrete runs of both indexers in which one backup's
deletion is rejected — the error string is recorded for it and the run still
reports `succeeded: true`. -/
theorem C7_witness :
    (ElasticIndexer { index := "a", keepAliasesCount := some 1 }
      { timeFormat := "3.2.2026_10-00-00", batches := [],
        cluster5 := ["a---3.2.2026_10-00-00", "a---2.2.2026_10-00-00",
                     "a---1.2.2026_10-00-00"],
        deleteOutcome := fun n =>
          if n = "a---1.2.2026_10-00-00" then some "boom" else none }).1.succeeded =
      some true ∧
    (ElasticIndexer { index := "a", keepAliasesCount := some 1 }
      { timeFormat := "3.2.2026_10-00-00", batches := [],
        cluster5 := ["a---3.2.2026_10-00-00", "a---2.2.2026_10-00-00",
                     "a---1.2.2026_10-00-00"],
        deleteOutcome := fun n =>
          if n = "a---1.2.2026_10-00-00" then some "boom" else none }).1.removeIndices =
      some [("a---1.2.2026_10-00-00", RemRes.failed "boom")] ∧
    (ElasticIndexer { index := "a", keepAliasesCount := some 1 }
      { timeFormat := "3.2.2026_10-00-00", batches := [],
        cluster5 := ["a---3.2.2026_10-00-00", "a---2.2.2026_10-00-00",
                     "a---1.2.2026_10-00-00"],
        deleteOutcome := fun n =>
          if n = "a---1.2.2026_10-00-00" then some "boom" else none }).1.keepIndices =
      some ["a---2.2.2026_10-00-00"] ∧
    (MongoIndexer { collectionName := "a" }
      { collections := ["a", "a---1.2.2026_10-00-00", "a---2.2.2026_10-00-00"],
        timeFormat := "3.2.2026_10-00-00", batches := [],
        dropOutcome := fun n =>
          if n = "a---1.2.2026_10-00-00" then some "boom" else none }).1.succeeded =
      some true ∧
    (MongoIndexer { collectionName := "a" }
      { collections := ["a", "a---1.2.2026_10-00-00", "a---2.2.2026_10-00-00"],
        timeFormat := "3.2.2026_10-00-00", batches := [],
        dropOutcome := fun n =>
          if n = "a---1.2.2026_10-00-00" then some "boom" else none }).1.removeIndices =
      some [("a---1.2.2026_10-00-00", RemRes.failed "boom")] := by
  have h := C7_retention { index := "a", keepAliasesCount := some 1 }
    { timeFormat := "3.2.2026_10-00-00", batches := [],
      cluster5 := ["a---3.2.2026_10-00-00", "a---2.2.2026_10-00-00",
                   "a---1.2.2026_10-00-00"],
      deleteOutcome := fun n =>
        if n = "a---1.2.2026_10-00-00" then some "boom" else none }
    { collectionName := "a" }
    { collections := ["a", "a---1.2.2026_10-00-00", "a---2.2.2026_10-00-00"],
      timeFormat := "3.2.2026_10-00-00", batches := [],
      dropOutcome := fun n =>
        if n = "a---1.2.2026_10-00-00" then some "boom" else none }
    (by decide) (by decide) (Or.inl rfl) (by rfl) (by decide) (Or.inl rfl)
  refine ⟨h.1.2.2.1, ?_, ?_, h.2.2.2.1, ?_⟩
  · rw [h.1.2.1]
    decide
  · rw [h.1.1]
    decide
  · rw [h.2.2.1]
    decide

/-- Claim C9: both build loops are strictly sequential with a monotone
cursor — the first callback call carries offset 0, a bulk write follows each
non-empty batch before the next call is issued, and each subsequent call's
offset is the previous one plus the number of records just written; the
engine never otherwise changes the offset. -/
theorem C9_sequential_monotone (cfg : ElasticConfig) (env : ElasticEnv)
    (mcfg : MongoConfig) (menv : MongoEnv) :
    SeqFrom 0 (elasticTrace (elasticInsert cfg env).2.1) ∧
    SeqFrom 0 (mongoTrace (mongoInsert mcfg menv).2.1) :=
  ⟨insertDataElastic_seq cfg.keyId (elasticIndexName cfg env) env.bulkErrors
     env.batches 0,
   insertDataMongo_seq mcfg menv.bulkOutcome menv.batches 0⟩

/-- Claim C10: a sync-mode run over a bound index that completes its loop and
passes validation still returns before `succeeded: true` is assigned and never
writes `removeAliases`, `keepIndices` or `removeIndices`. -/
theorem C10_sync_success_report (cfg : ElasticConfig) (env : ElasticEnv)
    (mcfg : MongoConfig) (menv : MongoEnv)
    (hs : elasticSyncMode cfg env = true) (hd : elasticDone cfg env = true)
    (ht : env.test = none ∨ env.test = some (Except.ok ()))
    (mhs : mongoSyncMode mcfg menv = true)
    (mhd : mongoStatus mcfg menv = Except.ok true)
    (mht : menv.test = none ∨ menv.test = some (Except.ok ())) :
    (ElasticIndexer cfg env).1.succeeded = none ∧
    (ElasticIndexer cfg env).1.removeAliases = none ∧
    (ElasticIndexer cfg env).1.keepIndices = none ∧
    (ElasticIndexer cfg env).1.removeIndices = none ∧
    (MongoIndexer mcfg menv).1.succeeded = none ∧
    (MongoIndexer mcfg menv).1.removeAliases = none ∧
    (MongoIndexer mcfg menv).1.keepIndices = none ∧
    (MongoIndexer mcfg menv).1.removeIndices = none := by
  have he := ElasticIndexer_sync cfg env hs
  have hm := MongoIndexer_sync mcfg menv mhs
  exact ⟨he.2.2.2.2, he.2.1, he.2.2.1, he.2.2.2.1,
         hm.2.2.2.2, hm.2.1, hm.2.2.1, hm.2.2.2.1⟩

/-- Witness for C10: concrete fully-successful sync runs of both indexers. -/
theorem C10_witness :
    (ElasticIndexer { index := "a", mode := some "sync" }
      { bound0 := ["a---1.2.2026_10-00-00"], timeFormat := "2.2.2026_10-00-00",
        batches := [], test := some (Except.ok ()) }).1.succeeded = none ∧
    (MongoIndexer { collectionName := "a", mode := some "sync" }
      { collections := ["a"], timeFormat := "2.2.2026_10-00-00",
        batches := [], test := some (Except.ok ()) }).1.succeeded = none :=
  have h := C10_sync_success_report { index := "a", mode := some "sync" }
    { bound0 := ["a---1.2.2026_10-00-00"], timeFormat := "2.2.2026_10-00-00",
      batches := [], test := some (Except.ok ()) }
    { collectionName := "a", mode := some "sync" }
    { collections := ["a"], timeFormat := "2.2.2026_10-00-00",
      batches := [], test := some (Except.ok ()) }
    (by decide) (by decide) (Or.inr rfl) (by decide) (by rfl) (Or.inr rfl)
  ⟨h.1, h.2.2.2.2.1⟩
